import Mathlib

/-!
# OpenSeaSteam: connection lifecycle and dispatch engine

A shallow embedding of `opensea.go` (the `Client` type and its methods) and of the
`EventPayload` record of `entity.go`.

Modelling conventions.

* The client is a record; every method is a function from a `State` (the client together
  with the observable history of the run) to a result and a new `State`.
* The network is an environment `Env` of outcomes: the result of the i-th `Dial`, the error
  (if any) of the i-th `WriteJSON`, the error of `conn.Close`.
* `sync.Mutex` is the Boolean field `mu` (`true` = held). `Lock` on a held mutex does not
  return in a sequential run: the method's outcome is `blocked`.
* A Go slice is `Option (List α)`: `none` is the nil slice, `some []` the empty non-nil one.
* A method call on a nil `*websocket.Conn` is a nil dereference: outcome `panicked`.
* Goroutines started with `go` are recorded in the history, not run.
-/

namespace OpenSea

/-- Go slice: `none` is nil, `some l` a non-nil slice with elements `l`. -/
abbrev Slice (α : Type) := Option (List α)

/-- What `for _, x := range s` iterates over: a nil slice has no elements. -/
def Slice.elems {α : Type} : Slice α → List α
  | none => []
  | some l => l

/-- Go `type NetWork string`. -/
abbrev NetWork := String

def MainNet : NetWork := "Mainnet"
def TESTNet : NetWork := "Testnet"

/-- Outbound frame, `type payload struct`. The `Payload interface{}` field is never set by
the client; `none` is its nil value. -/
structure payload where
  Topic : String
  Event : String
  Ref : String
  Payload : Option String := none
  deriving DecidableEq, Repr

/-- Inbound frame, `type Message struct`; `Payload` is the raw JSON (`json.RawMessage`). -/
structure Message where
  Topic : String
  Event : String
  Ref : String
  Payload : String
  deriving DecidableEq, Repr

/-- Go `type EventPayload struct` of `entity.go`; `Status` is the nested `Payload.Status`. -/
structure EventPayload where
  Event : String
  Status : String
  Ref : String
  Topic : String
  deriving DecidableEq, Repr

/-- Go `type EventType string`. -/
abbrev EventType := String

def ItemMetadataUpdated : EventType := "item_metadata_updated"
def ItemListed : EventType := "item_listed"
def ItemSold : EventType := "item_sold"
def ItemTransferred : EventType := "item_transferred"
def ItemReceivedOffer : EventType := "item_received_offer"
def ItemReceivedBid : EventType := "item_received_bid"
def ItemCancelled : EventType := "item_cancelled"
def CollectionOffer : EventType := "collection_offer"
def TraitOffer : EventType := "trait_offer"

/-- Go `type EventHandleFunc func(message Message)`: a function value is either nil or a
callback, identified here by a number. -/
inductive EventHandleFunc where
  | nil
  | fn (id : Nat)
  deriving DecidableEq, Repr

/-- Handle `*websocket.Conn` when non-nil: an identifier of the socket. -/
abbrev Conn := Nat

/-- Go `type ClientOptions struct`; durations are in nanoseconds (`time.Duration`). -/
structure ClientOptions where
  Token : String
  Slugs : Slice String
  NetWork : NetWork
  HeartbeatInterval : Int
  RetryInterval : Int
  MaxRetries : Int
  reconnecting : Bool := false

def defaultRetryInterval : Int := 5 * 1000000000
def defaultHeartbeat : Int := 30 * 1000000000
def defaultMaxRetries : Int := 3

def NewClientOptions : ClientOptions :=
  { Token := "<TOKEN>", Slugs := none, NetWork := TESTNet,
    HeartbeatInterval := defaultHeartbeat, RetryInterval := defaultRetryInterval,
    MaxRetries := defaultMaxRetries }

/-- Go `type Client struct`. `messageHandlers` is the Go map (absent key = `none`),
`mu` the mutex (`true` = held), `conn` the nullable connection handle. -/
structure Client where
  options : ClientOptions
  messageHandlers : EventType → Option EventHandleFunc
  mu : Bool
  conn : Option Conn

/-- Observable steps of a run, in program order. -/
inductive Event where
  | dial (url : String)
  | tickerWait
  | writeClose
  | connClose
  | writeJSON (v : payload) (err : Option String)
  | goHeartbeat
  | goReadMessages
  | handle (id : Nat) (msg : Message)
  deriving DecidableEq, Repr

/-- Outcomes supplied by the network. -/
structure Env where
  dial : Nat → Except String Conn
  writeJSON : Nat → Option String
  connClose : Option String

/-- The client and the history of the run: `dials` and `writes` count the calls made so far
to `Dial` and to `WriteJSON`. -/
structure State where
  client : Client
  trace : List Event
  dials : Nat
  writes : Nat

/-- How a method call ends. -/
inductive Outcome (α : Type) where
  | returned (a : α)
  | panicked
  | blocked
  deriving DecidableEq, Repr

/-- How one iteration of a background loop ends: `running` = the loop goes on to wait for
its next tick or frame, `terminated` = the goroutine returned. -/
inductive LoopStatus where
  | running
  | terminated
  | panicked
  | blocked
  deriving DecidableEq, Repr

def NewClient (options : Option ClientOptions) : Client :=
  { options := match options with
      | none => NewClientOptions
      | some o => o,
    messageHandlers := fun _ => none, mu := false, conn := none }

def WithOptions (c : Client) (options : ClientOptions) : Client :=
  { c with options := options }

def WithSlugs (c : Client) (slugs : Slice String) : Client :=
  { c with options := { c.options with Slugs := slugs } }

/-- Statement `c.mu.Lock()`: `none` when the mutex is held. -/
def Lock (s : State) : Option State :=
  if s.client.mu then none else some { s with client := { s.client with mu := true } }

/-- Statement `c.mu.Unlock()`. -/
def Unlock (s : State) : State :=
  { s with client := { s.client with mu := false } }

/-- Statement `c.conn.WriteJSON(v)`: `none` is the nil dereference on an absent connection; otherwise
the write is recorded with the error the network gives it. -/
def WriteJSON (env : Env) (v : payload) (s : State) : Option (Option String × State) :=
  match s.client.conn with
  | none => none
  | some _ =>
    let err := env.writeJSON s.writes
    some (err, { s with trace := s.trace ++ [Event.writeJSON v err], writes := s.writes + 1 })

/-- The `for _, collection := range collections` loop of `Subscribe`. -/
def subscribeRange (env : Env) : List String → State → Outcome (Option String) × State
  | [], s => (.returned none, s)
  | collection :: rest, s =>
    let topic := "collection:" ++ collection
    let subMsg : payload := { Topic := topic, Event := "phx_join", Ref := collection }
    match Lock s with
    | none => (.blocked, s)
    | some s1 =>
      match WriteJSON env subMsg s1 with
      | none => (.panicked, s1)
      | some (some err, s2) => (.returned (some err), Unlock s2)
      | some (none, s2) => subscribeRange env rest (Unlock s2)

/-- Method `func (c *Client) Subscribe(collections []string) error`. -/
def Subscribe (env : Env) (collections : Slice String) (s : State) :
    Outcome (Option String) × State :=
  match collections with
  | none => (.returned (some "collections is nil"), s)
  | some l => subscribeRange env l s

/-- The `for _, collection := range collections` loop of `UnSubscribe`: the error branch
returns without `c.mu.Unlock()`. -/
def unSubscribeRange (env : Env) : List String → State → Outcome (Option String) × State
  | [], s => (.returned none, s)
  | collection :: rest, s =>
    let topic := "collection:" ++ collection
    let subMsg : payload := { Topic := topic, Event := "phx_leave", Ref := collection }
    match Lock s with
    | none => (.blocked, s)
    | some s1 =>
      match WriteJSON env subMsg s1 with
      | none => (.panicked, s1)
      | some (some err, s2) => (.returned (some err), s2)
      | some (none, s2) => unSubscribeRange env rest (Unlock s2)

/-- Method `func (c *Client) UnSubscribe(collections []string) error`. -/
def UnSubscribe (env : Env) (collections : Slice String) (s : State) :
    Outcome (Option String) × State :=
  match collections with
  | none => (.returned (some "collections is nil"), s)
  | some l => unSubscribeRange env l s

/-- Method `func (c *Client) Conn() *websocket.Conn`. -/
def Client.Conn (s : State) : Outcome (Option Conn) × State :=
  match Lock s with
  | none => (.blocked, s)
  | some s1 => (.returned s1.client.conn, Unlock s1)

/-- Method `func (c *Client) Close() error`: a close control frame is written best-effort, then
the socket is closed; the handle itself is left as it is. -/
def Close (env : Env) (s : State) : Option String × State :=
  match s.client.conn with
  | none => (none, s)
  | some _ => (env.connClose, { s with trace := s.trace ++ [Event.writeClose, Event.connClose] })

/-- The endpoint chosen by `Connect`. -/
def endpointURL (o : ClientOptions) : String :=
  if o.NetWork = MainNet then
    "wss://stream.openseabeta.com/socket/websocket?token=" ++ o.Token
  else
    "wss://testnets-stream.openseabeta.com/socket/websocket?token=" ++ o.Token

/-- Value of `fmt.Errorf("connect failed after %d retries: %v", c.options.MaxRetries, err)`. -/
def connectError (maxRetries : Int) (err : String) : String :=
  "connect failed after " ++ toString maxRetries ++ " retries: " ++ err

/-- The `for { ... }` of `Connect`, `fuel` bounding the number of iterations: `none` is
fuel exhausted, `some (e, s)` the loop left with `return e` (`e = some _`) or `break`
(`e = none`). A failed `Dial` leaves `c.conn` nil. -/
def connectLoop (env : Env) (url : String) : Nat → Int → State → Option (Option String × State)
  | 0, _, _ => none
  | fuel + 1, retryCount, s =>
    let s1 := if s.client.conn ≠ none then (Close env s).2 else s
    let r := env.dial s1.dials
    match r with
    | .ok conn =>
      some (none, { s1 with client := { s1.client with conn := some conn },
                            trace := s1.trace ++ [Event.dial url], dials := s1.dials + 1 })
    | .error err =>
      let s2 : State := { s1 with client := { s1.client with conn := none },
                                  trace := s1.trace ++ [Event.dial url], dials := s1.dials + 1 }
      let retryCount := retryCount + 1
      if retryCount ≥ s2.client.options.MaxRetries then
        some (some (connectError s2.client.options.MaxRetries err), s2)
      else
        connectLoop env url fuel retryCount { s2 with trace := s2.trace ++ [Event.tickerWait] }

/-- Method `func (c *Client) Connect() error`, with `fuel` iterations of the dial loop allowed
(`none` = fuel exhausted). `time.NewTicker` panics on a non-positive interval; the deferred
`Unlock` runs on every way out. -/
def Connect (env : Env) (fuel : Nat) (s : State) : Option (Outcome (Option String) × State) :=
  match Lock s with
  | none => some (.blocked, s)
  | some s1 =>
    if s1.client.options.RetryInterval ≤ 0 then some (.panicked, Unlock s1)
    else
      match connectLoop env (endpointURL s1.client.options) fuel 0 s1 with
      | none => none
      | some (some err, s2) => some (.returned (some err), Unlock s2)
      | some (none, s2) =>
        some (.returned none,
          Unlock { s2 with trace := s2.trace ++ [Event.goHeartbeat, Event.goReadMessages] })

/-- One `case <-ticker.C:` of `heartbeat`: the `for _, slug := range c.options.Slugs`. -/
def heartbeatRange (env : Env) : List String → State → LoopStatus × State
  | [], s => (.running, s)
  | slug :: rest, s =>
    let heartbeat : payload := { Topic := "phoenix", Event := "heartbeat", Ref := slug }
    match s.client.conn with
    | none => (.terminated, s)
    | some _ =>
      match Lock s with
      | none => (.blocked, s)
      | some s1 =>
        match WriteJSON env heartbeat s1 with
        | none => (.panicked, s1)
        | some (some _, s2) => (.terminated, Unlock s2)
        | some (none, s2) => heartbeatRange env rest (Unlock s2)

/-- What `heartbeat` does on one tick of its ticker. -/
def heartbeatTick (env : Env) (s : State) : LoopStatus × State :=
  heartbeatRange env s.client.options.Slugs.elems s

/-- The `for { select { case <-ticker.C: ... } }` of `heartbeat` over `ticks` ticks. -/
def heartbeatLoop (env : Env) : Nat → State → LoopStatus × State
  | 0, s => (.running, s)
  | ticks + 1, s =>
    match heartbeatTick env s with
    | (.running, s1) => heartbeatLoop env ticks s1
    | stopped => stopped

/-- Method `func (c *Client) heartbeat()` run for `ticks` ticks; `time.NewTicker` panics on a
non-positive interval. -/
def heartbeat (env : Env) (ticks : Nat) (s : State) : LoopStatus × State :=
  if s.client.options.HeartbeatInterval ≤ 0 then (.panicked, s) else heartbeatLoop env ticks s

/-- One received text frame, given by its two decodings: `msg` is the result of
`json.Unmarshal(message, &msg)` (`none` on a decoding error), `msgEvent` what
`json.Unmarshal(message, &msgEvent)` leaves in `msgEvent` (its error is discarded). -/
structure Frame where
  msg : Option Message
  msgEvent : EventPayload

/-- Result of `c.conn.ReadMessage()`. -/
inductive ReadResult where
  | error (err : String)
  | message (frame : Frame)

/-- The noise filter of `readMessages`. -/
def suppressed (event : String) : Bool :=
  event == "item_received_bid" || event == "trait_offer" || event == "collection_offer"

/-- The part of the body of `readMessages` after a successful decoding of `msg`. -/
def processMessage (env : Env) (msg : Message) (msgEvent : EventPayload) (s : State) :
    LoopStatus × State :=
  if suppressed msg.Event then (.running, s)
  else
    let r : Outcome (Option String) × State :=
      if msg.Event = "phx_reply" ∧ msgEvent.Status ≠ "ok" then
        Subscribe env (some [msgEvent.Ref]) s
      else (.returned none, s)
    match r with
    | (.panicked, s1) => (.panicked, s1)
    | (.blocked, s1) => (.blocked, s1)
    | (.returned _, s1) =>
      match Lock s1 with
      | none => (.blocked, s1)
      | some s2 =>
        let handler := s2.client.messageHandlers msg.Event
        let s3 := Unlock s2
        match handler with
        | none => (.running, s3)
        | some EventHandleFunc.nil => (.panicked, s3)
        | some (EventHandleFunc.fn id) =>
          (.running, { s3 with trace := s3.trace ++ [Event.handle id msg] })

/-- One iteration of the `for` of `readMessages`, `r` being what `ReadMessage` returns. -/
def readIteration (env : Env) (r : ReadResult) (s : State) : LoopStatus × State :=
  match s.client.conn with
  | none => (.terminated, s)
  | some _ =>
    match r with
    | .error _ =>
      match Lock s with
      | none => (.blocked, s)
      | some s1 => (.terminated, Unlock { s1 with client := { s1.client with conn := none } })
    | .message frame =>
      match frame.msg with
      | none => (.running, s)
      | some msg => processMessage env msg frame.msgEvent s

/-- Method `func (c *Client) readMessages()` over the successive results of `ReadMessage`; when
they are used up and the connection is still present the loop is waiting in `ReadMessage`
(`running`). -/
def readMessages (env : Env) : List ReadResult → State → LoopStatus × State
  | [], s =>
    match s.client.conn with
    | none => (.terminated, s)
    | some _ => (.running, s)
  | r :: rest, s =>
    match readIteration env r s with
    | (.running, s1) => readMessages env rest s1
    | stopped => stopped

/-- Statement `c.messageHandlers[eventType] = handleFunc`. -/
def setHandler (c : Client) (eventType : EventType) (handleFunc : EventHandleFunc) : Client :=
  { c with messageHandlers := fun k => if k = eventType then some handleFunc
                                       else c.messageHandlers k }

/-- Method `func (c *Client) OnItems(eventTypes []EventType, handleFunc EventHandleFunc)`. -/
def OnItems (eventTypes : Slice EventType) (handleFunc : EventHandleFunc) (s : State) :
    Outcome Unit × State :=
  match Lock s with
  | none => (.blocked, s)
  | some s1 =>
    let c := eventTypes.elems.foldl (fun c eventType => setHandler c eventType handleFunc)
      s1.client
    (.returned (), Unlock { s1 with client := c })

def OnItemCancelled (h : EventHandleFunc) (s : State) := OnItems (some [ItemCancelled]) h s
def OnItemListed (h : EventHandleFunc) (s : State) := OnItems (some [ItemListed]) h s
def OnItemSold (h : EventHandleFunc) (s : State) := OnItems (some [ItemSold]) h s
def OnItemTransferred (h : EventHandleFunc) (s : State) := OnItems (some [ItemTransferred]) h s
def OnItemMetadataUpdated (h : EventHandleFunc) (s : State) :=
  OnItems (some [ItemMetadataUpdated]) h s
def OnItemReceivedOffer (h : EventHandleFunc) (s : State) :=
  OnItems (some [ItemReceivedOffer]) h s
def OnItemReceivedBid (h : EventHandleFunc) (s : State) := OnItems (some [ItemReceivedBid]) h s
def OnCollectionOffer (h : EventHandleFunc) (s : State) := OnItems (some [CollectionOffer]) h s
def OnTraitOffer (h : EventHandleFunc) (s : State) := OnItems (some [TraitOffer]) h s

/-! ## Observations on a history -/

/-- The frames passed to `WriteJSON`, in order, whatever the result of the write. -/
def framesOf : List Event → List payload
  | [] => []
  | Event.writeJSON v _ :: rest => v :: framesOf rest
  | _ :: rest => framesOf rest

/-- The handler invocations, in order. -/
def handledOf : List Event → List (Nat × Message)
  | [] => []
  | Event.handle id msg :: rest => (id, msg) :: handledOf rest
  | _ :: rest => handledOf rest

/-- Number of `Dial` calls. -/
def dialsOf : List Event → Nat
  | [] => 0
  | Event.dial _ :: rest => dialsOf rest + 1
  | _ :: rest => dialsOf rest

/-- Number of waits on the retry ticker. -/
def waitsOf : List Event → Nat
  | [] => 0
  | Event.tickerWait :: rest => waitsOf rest + 1
  | _ :: rest => waitsOf rest

/-- Number of goroutines started. -/
def spawnsOf : List Event → Nat
  | [] => 0
  | Event.goHeartbeat :: rest => spawnsOf rest + 1
  | Event.goReadMessages :: rest => spawnsOf rest + 1
  | _ :: rest => spawnsOf rest

/-- The join frame `Subscribe` builds for a collection. -/
def joinFrame (collection : String) : payload :=
  { Topic := "collection:" ++ collection, Event := "phx_join", Ref := collection }

/-- The leave frame `UnSubscribe` builds for a collection. -/
def leaveFrame (collection : String) : payload :=
  { Topic := "collection:" ++ collection, Event := "phx_leave", Ref := collection }

/-- The frame `heartbeat` builds for a slug. -/
def heartbeatFrame (slug : String) : payload :=
  { Topic := "phoenix", Event := "heartbeat", Ref := slug }

/-! ## States reached by writes, expected histories, sample inputs -/

/-- The state after `WriteJSON v` returned `err` on a client whose mutex was free. -/
def State.wrote (s : State) (v : payload) (err : Option String) : State :=
  { s with trace := s.trace ++ [Event.writeJSON v err], writes := s.writes + 1 }

/-- The state after the frames `vs` were all written successfully, one `Lock`/`Unlock`
pair around each, on a client whose mutex was free. -/
def State.wroteAll (s : State) (vs : List payload) : State :=
  { s with trace := s.trace ++ vs.map (fun v => Event.writeJSON v none),
           writes := s.writes + vs.length }

/-- An environment in which every dial fails with `"refused"` and every write succeeds. -/
def quietEnv : Env :=
  { dial := fun _ => .error "refused", writeJSON := fun _ => none, connClose := none }

/-- A freshly built client that holds connection `7`, with an empty history. -/
def connected : State :=
  { client := { NewClient none with conn := some 7 }, trace := [], dials := 0, writes := 0 }

/-- A freshly built client without a connection, with an empty history. -/
def disconnected : State :=
  { client := NewClient none, trace := [], dials := 0, writes := 0 }

/-- An environment in which every write fails with `"broken pipe"`. -/
def brokenEnv : Env :=
  { dial := fun _ => .error "refused", writeJSON := fun _ => some "broken pipe",
    connClose := none }

/-- What `Connect` does to a connection it still holds before its first dial. -/
def closing (s : State) : List Event :=
  match s.client.conn with
  | none => []
  | some _ => [Event.writeClose, Event.connClose]

/-- The history of `n` dial attempts with one wait on the retry ticker between two
consecutive attempts. -/
def attempts (url : String) (n : Nat) : List Event :=
  (List.replicate n (Event.dial url)).intersperse Event.tickerWait

/-- How a call of `Connect` ended (`none` when the fuel ran out). -/
def outcomeOf (r : Option (Outcome (Option String) × State)) :
    Option (Outcome (Option String)) :=
  r.map Prod.fst

/-- Number of `Dial` calls in the history a call of `Connect` leaves. -/
def dialsAfter (r : Option (Outcome (Option String) × State)) : Option Nat :=
  r.map (fun x => dialsOf x.2.trace)

/-- Number of waits on the retry ticker in the history a call of `Connect` leaves. -/
def waitsAfter (r : Option (Outcome (Option String) × State)) : Option Nat :=
  r.map (fun x => waitsOf x.2.trace)

/-- Number of goroutines started in the history a call of `Connect` leaves. -/
def spawnsAfter (r : Option (Outcome (Option String) × State)) : Option Nat :=
  r.map (fun x => spawnsOf x.2.trace)

/-- A freshly built client, without a connection, configured with `MaxRetries = 0`. -/
def zeroRetries : State :=
  { client := NewClient (some { NewClientOptions with MaxRetries := 0 }),
    trace := [], dials := 0, writes := 0 }

/-- A freshly built client, without a connection, configured with `RetryInterval = 0` (the
zero value of the field) and the default `MaxRetries = 3`. -/
def zeroInterval : State :=
  { client := NewClient (some { NewClientOptions with RetryInterval := 0 }),
    trace := [], dials := 0, writes := 0 }

/-- A connected client configured with the slugs `["a", "b"]`. -/
def withSlugs : State :=
  { connected with client := WithSlugs connected.client (some ["a", "b"]) }

/-- A connected client on which `OnItemSold` has registered handler `1`. -/
def soldRegistered : State := (OnItemSold (EventHandleFunc.fn 1) connected).2

/-- A decoded `item_sold` frame. -/
def soldMessage : Message :=
  { Topic := "collection:a", Event := "item_sold", Ref := "", Payload := "[100]" }

/-! ## Subscribe and UnSubscribe -/

theorem subscribeRange_cons_ok (env : Env) (s : State) (x : String) (rest : List String)
    (conn : Conn) (hconn : s.client.conn = some conn) (hmu : s.client.mu = false)
    (hw : env.writeJSON s.writes = none) :
    subscribeRange env (x :: rest) s
      = subscribeRange env rest (s.wrote { Topic := "collection:" ++ x, Event := "phx_join", Ref := x } none) := by
  obtain ⟨⟨o, hs, mu, c⟩, tr, d, w⟩ := s
  simp only at hconn hmu hw
  subst hconn hmu
  simp [subscribeRange, Lock, WriteJSON, Unlock, State.wrote, hw]

theorem subscribeRange_cons_err (env : Env) (s : State) (x : String) (rest : List String)
    (conn : Conn) (e : String) (hconn : s.client.conn = some conn) (hmu : s.client.mu = false)
    (hw : env.writeJSON s.writes = some e) :
    subscribeRange env (x :: rest) s
      = (.returned (some e), s.wrote { Topic := "collection:" ++ x, Event := "phx_join", Ref := x } (some e)) := by
  obtain ⟨⟨o, hs, mu, c⟩, tr, d, w⟩ := s
  simp only at hconn hmu hw
  subst hconn hmu
  simp [subscribeRange, Lock, WriteJSON, Unlock, State.wrote, hw]

theorem State.wrote_wroteAll (s : State) (v : payload) (vs : List payload) :
    (s.wrote v none).wroteAll vs = s.wroteAll (v :: vs) := by
  simp [State.wrote, State.wroteAll, Nat.add_assoc, Nat.add_comm 1]

theorem subscribeRange_append_ok (env : Env) (conn : Conn) (pre post : List String) :
    ∀ s : State, s.client.conn = some conn → s.client.mu = false →
      (∀ i, i < pre.length → env.writeJSON (s.writes + i) = none) →
      subscribeRange env (pre ++ post) s
        = subscribeRange env post (s.wroteAll (pre.map joinFrame)) := by
  induction pre with
  | nil => intro s _ _ _; simp [State.wroteAll]
  | cons x pre ih =>
    intro s hconn hmu hw
    have h0 : env.writeJSON s.writes = none := by simpa using hw 0 (by simp)
    rw [List.cons_append, subscribeRange_cons_ok env s x _ conn hconn hmu h0]
    rw [ih (s.wrote _ none) hconn hmu]
    · rw [List.map_cons, ← State.wrote_wroteAll]; rfl
    · intro i hi
      have := hw (i + 1) (by simpa using hi)
      simpa [State.wrote, Nat.add_assoc, Nat.add_comm 1] using this

theorem unSubscribeRange_cons_ok (env : Env) (s : State) (x : String) (rest : List String)
    (conn : Conn) (hconn : s.client.conn = some conn) (hmu : s.client.mu = false)
    (hw : env.writeJSON s.writes = none) :
    unSubscribeRange env (x :: rest) s
      = unSubscribeRange env rest (s.wrote { Topic := "collection:" ++ x, Event := "phx_leave", Ref := x } none) := by
  obtain ⟨⟨o, hs, mu, c⟩, tr, d, w⟩ := s
  simp only at hconn hmu hw
  subst hconn hmu
  simp [unSubscribeRange, Lock, WriteJSON, Unlock, State.wrote, hw]

/-- On a failed write `UnSubscribe` returns with the mutex still held. -/
theorem unSubscribeRange_cons_err (env : Env) (s : State) (x : String) (rest : List String)
    (conn : Conn) (e : String) (hconn : s.client.conn = some conn) (hmu : s.client.mu = false)
    (hw : env.writeJSON s.writes = some e) :
    unSubscribeRange env (x :: rest) s
      = (.returned (some e),
          { (s.wrote { Topic := "collection:" ++ x, Event := "phx_leave", Ref := x } (some e)) with
            client := { s.client with mu := true } }) := by
  obtain ⟨⟨o, hs, mu, c⟩, tr, d, w⟩ := s
  simp only at hconn hmu hw
  subst hconn hmu
  simp [unSubscribeRange, Lock, WriteJSON, State.wrote, hw]

theorem unSubscribeRange_append_ok (env : Env) (conn : Conn) (pre post : List String) :
    ∀ s : State, s.client.conn = some conn → s.client.mu = false →
      (∀ i, i < pre.length → env.writeJSON (s.writes + i) = none) →
      unSubscribeRange env (pre ++ post) s
        = unSubscribeRange env post (s.wroteAll (pre.map leaveFrame)) := by
  induction pre with
  | nil => intro s _ _ _; simp [State.wroteAll]
  | cons x pre ih =>
    intro s hconn hmu hw
    have h0 : env.writeJSON s.writes = none := by simpa using hw 0 (by simp)
    rw [List.cons_append, unSubscribeRange_cons_ok env s x _ conn hconn hmu h0]
    rw [ih (s.wrote _ none) hconn hmu]
    · rw [List.map_cons, ← State.wrote_wroteAll]; rfl
    · intro i hi
      have := hw (i + 1) (by simpa using hi)
      simpa [State.wrote, Nat.add_assoc, Nat.add_comm 1] using this

/-- C2. For a non-nil list of topic identifiers, a present connection, a free mutex and
writes that all succeed, `Subscribe` writes exactly one frame per identifier, in list
order, the frame for `x` having topic `"collection:" ++ x`, event `"phx_join"` and ref `x`,
returns nil and leaves the client as it was; `UnSubscribe` does the same with event
`"phx_leave"`. On the empty list both write nothing and return nil. -/
theorem Subscribe_UnSubscribe_send_all (env : Env) (s : State) (l : List String) (conn : Conn)
    (hconn : s.client.conn = some conn) (hmu : s.client.mu = false)
    (hw : ∀ i, i < l.length → env.writeJSON (s.writes + i) = none) :
    Subscribe env (some l) s
        = (.returned none,
            { s with
              trace := s.trace ++ l.map (fun x =>
                Event.writeJSON { Topic := "collection:" ++ x, Event := "phx_join", Ref := x } none),
              writes := s.writes + l.length })
      ∧ UnSubscribe env (some l) s
        = (.returned none,
            { s with
              trace := s.trace ++ l.map (fun x =>
                Event.writeJSON { Topic := "collection:" ++ x, Event := "phx_leave", Ref := x } none),
              writes := s.writes + l.length })
      ∧ Subscribe env (some []) s = (.returned none, s)
      ∧ UnSubscribe env (some []) s = (.returned none, s) := by
  refine ⟨?_, ?_, rfl, rfl⟩
  · have h := subscribeRange_append_ok env conn l [] s hconn hmu hw
    rw [List.append_nil] at h
    rw [Subscribe, h]
    simp [subscribeRange, State.wroteAll, joinFrame, Function.comp_def]
  · have h := unSubscribeRange_append_ok env conn l [] s hconn hmu hw
    rw [List.append_nil] at h
    rw [UnSubscribe, h]
    simp [unSubscribeRange, State.wroteAll, leaveFrame, Function.comp_def]

/-- C2 at `["a", "b"]` on a connected client: two join frames, `collection:a` then
`collection:b`. -/
theorem Subscribe_UnSubscribe_send_all_witness :
    (Subscribe quietEnv (some ["a", "b"]) connected).1 = .returned none
      ∧ framesOf (Subscribe quietEnv (some ["a", "b"]) connected).2.trace
          = [{ Topic := "collection:a", Event := "phx_join", Ref := "a" },
             { Topic := "collection:b", Event := "phx_join", Ref := "b" }] := by
  have h := (Subscribe_UnSubscribe_send_all quietEnv connected ["a", "b"] 7 rfl rfl
    (fun _ _ => rfl)).1
  rw [h]
  exact ⟨rfl, by decide⟩

/-- C3. `Subscribe(nil)` and `UnSubscribe(nil)` return an error and leave the state (so the
history of writes too) untouched, whatever the client and the network are. -/
theorem Subscribe_UnSubscribe_nil (env : Env) (s : State) :
    Subscribe env none s = (.returned (some "collections is nil"), s)
      ∧ UnSubscribe env none s = (.returned (some "collections is nil"), s) :=
  ⟨rfl, rfl⟩

theorem List.split_at_index {α : Type} (l : List α) (k : Nat) (hk : k < l.length) :
    l = l.take k ++ l[k] :: l.drop (k + 1) := by
  rw [← List.drop_eq_getElem_cons hk, List.take_append_drop]

/-- C9. For a non-nil topic list `l` and a position `k` in it (counted from 0) such that the
writes for the identifiers before position `k` succeed and the write for `l[k]` fails with
`e`, with the connection present and the mutex free on entry: `Subscribe` returns exactly
`e`, and the writes it has attempted are exactly the joins of the first `k` identifiers
(successful) followed by the failed join of `l[k]`: nothing for the later identifiers and
no leave frame. `UnSubscribe` likewise, with leave frames and no join frame. -/
theorem Subscribe_UnSubscribe_abort_on_error (env : Env) (s : State) (l : List String)
    (k : Nat) (hk : k < l.length) (conn : Conn) (e : String)
    (hconn : s.client.conn = some conn) (hmu : s.client.mu = false)
    (hok : ∀ i, i < k → env.writeJSON (s.writes + i) = none)
    (herr : env.writeJSON (s.writes + k) = some e) :
    (Subscribe env (some l) s).1 = .returned (some e)
      ∧ (Subscribe env (some l) s).2.trace
          = s.trace
            ++ (l.take k).map (fun x =>
                Event.writeJSON { Topic := "collection:" ++ x, Event := "phx_join", Ref := x } none)
            ++ [Event.writeJSON
                  { Topic := "collection:" ++ l[k], Event := "phx_join", Ref := l[k] } (some e)]
      ∧ (Subscribe env (some l) s).2.writes = s.writes + k + 1
      ∧ (UnSubscribe env (some l) s).1 = .returned (some e)
      ∧ (UnSubscribe env (some l) s).2.trace
          = s.trace
            ++ (l.take k).map (fun x =>
                Event.writeJSON { Topic := "collection:" ++ x, Event := "phx_leave", Ref := x } none)
            ++ [Event.writeJSON
                  { Topic := "collection:" ++ l[k], Event := "phx_leave", Ref := l[k] } (some e)]
      ∧ (UnSubscribe env (some l) s).2.writes = s.writes + k + 1 := by
  have hlen : (l.take k).length = k := by
    rw [List.length_take]; omega
  have hok' : ∀ i, i < (l.take k).length → env.writeJSON (s.writes + i) = none := by
    intro i hi; exact hok i (by omega)
  have hsplit := List.split_at_index l k hk
  have hS : Subscribe env (some l) s
      = (.returned (some e),
          (s.wroteAll ((l.take k).map joinFrame)).wrote
            { Topic := "collection:" ++ l[k], Event := "phx_join", Ref := l[k] } (some e)) := by
    have h1 := subscribeRange_append_ok env conn (l.take k) (l[k] :: l.drop (k + 1)) s
      hconn hmu hok'
    rw [← hsplit] at h1
    rw [Subscribe, h1]
    exact subscribeRange_cons_err env _ _ _ conn e hconn hmu
      (by simpa [State.wroteAll, Nat.min_eq_left (Nat.le_of_lt hk)] using herr)
  have hU : UnSubscribe env (some l) s
      = (.returned (some e),
          { ((s.wroteAll ((l.take k).map leaveFrame)).wrote
              { Topic := "collection:" ++ l[k], Event := "phx_leave", Ref := l[k] } (some e)) with
            client := { s.client with mu := true } }) := by
    have h1 := unSubscribeRange_append_ok env conn (l.take k) (l[k] :: l.drop (k + 1)) s
      hconn hmu hok'
    rw [← hsplit] at h1
    rw [UnSubscribe, h1]
    exact unSubscribeRange_cons_err env _ _ _ conn e hconn hmu
      (by simpa [State.wroteAll, Nat.min_eq_left (Nat.le_of_lt hk)] using herr)
  rw [hS, hU]
  refine ⟨rfl, ?_, ?_, rfl, ?_, ?_⟩
  · simp [State.wrote, State.wroteAll, joinFrame, Function.comp_def]
  · simp [State.wrote, State.wroteAll, Nat.le_of_lt hk]
  · simp [State.wrote, State.wroteAll, leaveFrame, Function.comp_def]
  · simp [State.wrote, State.wroteAll, Nat.le_of_lt hk]

/-- C9 at `["a", "b", "c"]` when the first write succeeds and the second fails: the error
comes back and only the joins of `a` and `b` have been attempted. -/
theorem Subscribe_UnSubscribe_abort_on_error_witness :
    (Subscribe
        { brokenEnv with writeJSON := fun i => if i = 0 then none else some "broken pipe" }
        (some ["a", "b", "c"]) connected).1 = .returned (some "broken pipe")
      ∧ framesOf (Subscribe
          { brokenEnv with writeJSON := fun i => if i = 0 then none else some "broken pipe" }
          (some ["a", "b", "c"]) connected).2.trace
          = [{ Topic := "collection:a", Event := "phx_join", Ref := "a" },
             { Topic := "collection:b", Event := "phx_join", Ref := "b" }] := by
  have h := Subscribe_UnSubscribe_abort_on_error
    { brokenEnv with writeJSON := fun i => if i = 0 then none else some "broken pipe" }
    connected ["a", "b", "c"] 1 (by decide) 7 "broken pipe" rfl rfl
    (fun i hi => by
      have h0 : i = 0 := by omega
      subst h0; rfl)
    rfl
  refine ⟨h.1, ?_⟩
  rw [h.2.1]
  decide

/-- Whatever the topics and the results of the writes, `Subscribe` on a connected client
whose mutex is free returns, with the mutex free again. -/
theorem subscribeRange_mutex_free (env : Env) (conn : Conn) (l : List String) :
    ∀ s : State, s.client.conn = some conn → s.client.mu = false →
      (∃ r, (subscribeRange env l s).1 = .returned r)
        ∧ (subscribeRange env l s).2.client.mu = false := by
  induction l with
  | nil => intro s _ hmu; exact ⟨⟨none, rfl⟩, hmu⟩
  | cons x rest ih =>
    intro s hconn hmu
    cases hw : env.writeJSON s.writes with
    | none =>
      rw [subscribeRange_cons_ok env s x rest conn hconn hmu hw]
      exact ih _ hconn hmu
    | some e =>
      rw [subscribeRange_cons_err env s x rest conn e hconn hmu hw]
      exact ⟨⟨some e, rfl⟩, hmu⟩

/-- Whenever `UnSubscribe`, entered on a connected client with the mutex free, returns an
error for a non-nil list, the mutex is held at the return. -/
theorem unSubscribeRange_error_mutex_held (env : Env) (conn : Conn) (l : List String) :
    ∀ s : State, s.client.conn = some conn → s.client.mu = false →
      ∀ e, (unSubscribeRange env l s).1 = .returned (some e) →
        (unSubscribeRange env l s).2.client.mu = true := by
  induction l with
  | nil => intro s _ _ e h; simp [unSubscribeRange] at h
  | cons x rest ih =>
    intro s hconn hmu e h
    cases hw : env.writeJSON s.writes with
    | none =>
      rw [unSubscribeRange_cons_ok env s x rest conn hconn hmu hw] at h ⊢
      exact ih _ hconn hmu e h
    | some e1 =>
      rw [unSubscribeRange_cons_err env s x rest conn e1 hconn hmu hw]

/-- C10, at the failing input. On a connected client with the mutex free, when the write
fails, `UnSubscribe(["a"])` returns the error with the mutex still held, where
`Subscribe(["a"])` returns it with the mutex released; any later `Lock` then never
returns: a second `UnSubscribe` is blocked. -/
theorem UnSubscribe_error_keeps_mutex :
    (UnSubscribe brokenEnv (some ["a"]) connected).1 = .returned (some "broken pipe")
      ∧ (UnSubscribe brokenEnv (some ["a"]) connected).2.client.mu = true
      ∧ (Subscribe brokenEnv (some ["a"]) connected).1 = .returned (some "broken pipe")
      ∧ (Subscribe brokenEnv (some ["a"]) connected).2.client.mu = false
      ∧ (UnSubscribe brokenEnv (some ["a"])
          (UnSubscribe brokenEnv (some ["a"]) connected).2).1 = .blocked :=
  ⟨rfl, rfl, rfl, rfl, rfl⟩

/-! ## Connect -/

theorem attempts_succ_succ (url : String) (n : Nat) :
    attempts url (n + 2) = Event.dial url :: Event.tickerWait :: attempts url (n + 1) := by
  simp [attempts, List.replicate_succ]

theorem dialsOf_attempts (url : String) (n : Nat) : dialsOf (attempts url n) = n := by
  induction n using Nat.strong_induction_on with
  | _ n ih =>
    match n with
    | 0 => rfl
    | 1 => rfl
    | n + 2 =>
      rw [attempts_succ_succ]
      simp [dialsOf, ih (n + 1) (by omega)]

theorem waitsOf_attempts (url : String) (n : Nat) : waitsOf (attempts url n) = n - 1 := by
  induction n using Nat.strong_induction_on with
  | _ n ih =>
    match n with
    | 0 => rfl
    | 1 => rfl
    | n + 2 =>
      rw [attempts_succ_succ]
      simp [waitsOf, ih (n + 1) (by omega)]

theorem spawnsOf_attempts (url : String) (n : Nat) : spawnsOf (attempts url n) = 0 := by
  induction n using Nat.strong_induction_on with
  | _ n ih =>
    match n with
    | 0 => rfl
    | 1 => rfl
    | n + 2 =>
      rw [attempts_succ_succ]
      simp [spawnsOf, ih (n + 1) (by omega)]

theorem spawnsOf_closing (s : State) : spawnsOf (closing s) = 0 := by
  unfold closing
  cases s.client.conn <;> rfl

theorem spawnsOf_append (a b : List Event) : spawnsOf (a ++ b) = spawnsOf a + spawnsOf b := by
  induction a with
  | nil => simp [spawnsOf]
  | cons x a ih => cases x <;> simp [spawnsOf, ih] <;> omega

/-- The dial loop behaves on a client holding a connection as on the client without it whose
history has the closing of that connection. -/
theorem connectLoop_closing (env : Env) (url : String) (fuel : Nat) (r : Int) (s : State) :
    connectLoop env url fuel r s
      = connectLoop env url fuel r
          { s with client := { s.client with conn := none }, trace := s.trace ++ closing s } := by
  obtain ⟨⟨o, hs, mu, c⟩, tr, d, w⟩ := s
  cases fuel with
  | zero => rfl
  | succ fuel =>
    cases c with
    | none => simp [closing]
    | some c => simp [connectLoop, closing, Close]

/-- The dial loop when every dial fails, entered without a connection with `retryCount = r`:
it makes `m + 1` attempts, where `m + 1` is the number of increments that takes `r` to
`MaxRetries` (one when `r + 1` is already there). -/
theorem connectLoop_fails (env : Env) (url : String)
    (hfail : ∀ i, ∃ e, env.dial i = Except.error e) (m : Nat) :
    ∀ (fuel : Nat) (r : Int) (s : State), s.client.conn = none → m + 1 ≤ fuel →
      s.client.options.MaxRetries ≤ r + m + 1 →
      (m = 0 ∨ r + m < s.client.options.MaxRetries) →
      ∃ e, connectLoop env url fuel r s
        = some (some e,
            { s with trace := s.trace ++ attempts url (m + 1), dials := s.dials + (m + 1) }) := by
  induction m with
  | zero =>
    intro fuel r s hconn hfuel hN _
    obtain ⟨⟨o, hs, mu, c⟩, tr, d, w⟩ := s
    simp only at hconn hN
    subst hconn
    obtain ⟨fuel, rfl⟩ : ∃ f, fuel = f + 1 := ⟨fuel - 1, by omega⟩
    obtain ⟨e, he⟩ := hfail d
    have hN' : o.MaxRetries ≤ r + 1 := by omega
    exact ⟨connectError o.MaxRetries e, by simp [connectLoop, he, hN', attempts]⟩
  | succ m ih =>
    intro fuel r s hconn hfuel hN hlt
    obtain ⟨⟨o, hs, mu, c⟩, tr, d, w⟩ := s
    simp only at hconn hN hlt
    subst hconn
    obtain ⟨fuel, rfl⟩ : ∃ f, fuel = f + 1 := ⟨fuel - 1, by omega⟩
    obtain ⟨e, he⟩ := hfail d
    have hN' : ¬ o.MaxRetries ≤ r + 1 := by omega
    obtain ⟨e', he'⟩ := ih fuel (r + 1)
      { client := { options := o, messageHandlers := hs, mu := mu, conn := none },
        trace := tr ++ [Event.dial url] ++ [Event.tickerWait], dials := d + 1, writes := w }
      rfl (by omega) (by simp only; omega) (by simp only; omega)
    refine ⟨e', ?_⟩
    simp only [connectLoop, he, hN']
    simp only [ne_eq, not_true_eq_false, if_false, ge_iff_le, ite_false]
    rw [he']
    simp [attempts_succ_succ, Nat.add_assoc, Nat.add_comm 1]
    rw [he]
    simp [hN']

theorem dialsOf_append (a b : List Event) : dialsOf (a ++ b) = dialsOf a + dialsOf b := by
  induction a with
  | nil => simp [dialsOf]
  | cons x a ih =>
    cases x <;> simp [dialsOf, ih]
    omega

theorem waitsOf_append (a b : List Event) : waitsOf (a ++ b) = waitsOf a + waitsOf b := by
  induction a with
  | nil => simp [waitsOf]
  | cons x a ih =>
    cases x <;> simp [waitsOf, ih]
    omega

theorem dialsOf_closing (s : State) : dialsOf (closing s) = 0 := by
  unfold closing
  cases s.client.conn <;> rfl

theorem waitsOf_closing (s : State) : waitsOf (closing s) = 0 := by
  unfold closing
  cases s.client.conn <;> rfl

/-- Behaviour of `Connect` when every dial fails, entered with the mutex free and a positive retry
interval, given at least `n = max MaxRetries 1` iterations of fuel. -/
theorem Connect_fails (env : Env) (s : State) (fuel n : Nat)
    (hmu : s.client.mu = false) (hint : 0 < s.client.options.RetryInterval)
    (hfail : ∀ i, ∃ e, env.dial i = Except.error e)
    (hn : (n : Int) = max s.client.options.MaxRetries 1) (hfuel : n ≤ fuel) :
    ∃ e, Connect env fuel s
      = some (.returned (some e),
          { s with client := { s.client with conn := none },
                   trace := s.trace ++ closing s ++ attempts (endpointURL s.client.options) n,
                   dials := s.dials + n }) := by
  obtain ⟨m, rfl⟩ : ∃ m, n = m + 1 := ⟨n - 1, by omega⟩
  obtain ⟨e, he⟩ := connectLoop_fails env (endpointURL s.client.options) hfail m fuel 0
    { s with client := { s.client with conn := none, mu := true }, trace := s.trace ++ closing s }
    rfl hfuel (by simp only; omega) (by simp only; omega)
  refine ⟨e, ?_⟩
  obtain ⟨⟨o, hs, mu, c⟩, tr, d, w⟩ := s
  simp only at hmu hint he
  subst hmu
  have hint' : ¬ o.RetryInterval ≤ 0 := by omega
  simp only [Connect, Lock, Bool.false_eq_true, if_false, hint']
  rw [connectLoop_closing]
  simp only [closing] at he ⊢
  rw [he]
  simp [Unlock]

/-- With a non-positive retry interval `Connect`, entered with the mutex free, panics in
`time.NewTicker`: no dial is made, and the deferred `Unlock` leaves the state as it was. -/
theorem Connect_panics (env : Env) (s : State) (fuel : Nat)
    (hmu : s.client.mu = false) (hint : s.client.options.RetryInterval ≤ 0) :
    Connect env fuel s = some (.panicked, s) := by
  obtain ⟨⟨o, hs, mu, c⟩, tr, d, w⟩ := s
  simp only at hmu hint
  subst hmu
  simp [Connect, Lock, Unlock, hint]

/-- C1 as stated fails at `MaxRetries = 0`: with a dial that always fails `Connect` returns
an error after one dial attempt (and no wait), not after zero attempts. It also fails at
`RetryInterval = 0` with `MaxRetries = 3`: `Connect` panics in `time.NewTicker` before any
dial, so there are zero attempts, not three, and no error is returned. -/
theorem Connect_zero_retries_dials_once :
    zeroRetries.client.options.MaxRetries = 0
      ∧ outcomeOf (Connect quietEnv 3 zeroRetries)
          = some (.returned (some "connect failed after 0 retries: refused"))
      ∧ dialsAfter (Connect quietEnv 3 zeroRetries) = some 1
      ∧ waitsAfter (Connect quietEnv 3 zeroRetries) = some 0
      ∧ ¬ (dialsAfter (Connect quietEnv 3 zeroRetries) = some 0)
      ∧ zeroInterval.client.options.MaxRetries = 3
      ∧ outcomeOf (Connect quietEnv 3 zeroInterval) = some .panicked
      ∧ dialsAfter (Connect quietEnv 3 zeroInterval) = some 0
      ∧ ¬ (dialsAfter (Connect quietEnv 3 zeroInterval) = some 3) :=
  ⟨rfl, rfl, by decide, by decide, by decide, rfl, by decide, by decide, by decide⟩

/-- C1, amended. With a dial that always fails and the mutex free on entry, `Connect` with
`MaxRetries = N` and a positive `RetryInterval` returns (given at least `max N 1`
iterations of fuel) a non-nil error after exactly `n = max N 1` dial attempts (so `N` of
them when `1 ≤ N`) with exactly `n - 1` waits on the retry ticker, one between two
consecutive attempts; no goroutine is started, the connection handle is absent and the
mutex is free at the return. With a non-positive `RetryInterval` it panics in
`time.NewTicker` before any dial, leaving the state as it was. -/
theorem Connect_dial_always_fails (env : Env) (s : State) (fuel n : Nat)
    (hmu : s.client.mu = false)
    (hfail : ∀ i, ∃ e, env.dial i = Except.error e)
    (hn : (n : Int) = max s.client.options.MaxRetries 1) (hfuel : n ≤ fuel) :
    (0 < s.client.options.RetryInterval →
        ∃ e s1, Connect env fuel s = some (.returned (some e), s1)
          ∧ s1.trace = s.trace ++ closing s
              ++ (List.replicate n (Event.dial (endpointURL s.client.options))).intersperse
                  Event.tickerWait
          ∧ dialsOf s1.trace = dialsOf s.trace + n
          ∧ waitsOf s1.trace = waitsOf s.trace + (n - 1)
          ∧ spawnsOf s1.trace = spawnsOf s.trace
          ∧ s1.client.conn = none
          ∧ s1.client.mu = false
          ∧ (1 ≤ s.client.options.MaxRetries → (n : Int) = s.client.options.MaxRetries))
      ∧ (s.client.options.RetryInterval ≤ 0 → Connect env fuel s = some (.panicked, s)) := by
  refine ⟨fun hint => ?_, fun hint => Connect_panics env s fuel hmu hint⟩
  obtain ⟨e, he⟩ := Connect_fails env s fuel n hmu hint hfail hn hfuel
  refine ⟨e, _, he, rfl, ?_, ?_, ?_, rfl, hmu, fun h => by omega⟩
  · simp [dialsOf_append, dialsOf_closing, dialsOf_attempts]
  · simp [waitsOf_append, waitsOf_closing, waitsOf_attempts]
  · simp [spawnsOf_append, spawnsOf_closing, spawnsOf_attempts]

/-- C1 amended, at the default options (`MaxRetries = 3`, `RetryInterval` of 5 s): an error
after three dials and two waits, no goroutine started. -/
theorem Connect_dial_always_fails_witness :
    outcomeOf (Connect quietEnv 3 disconnected)
        = some (.returned (some "connect failed after 3 retries: refused"))
      ∧ dialsAfter (Connect quietEnv 3 disconnected) = some 3
      ∧ waitsAfter (Connect quietEnv 3 disconnected) = some 2
      ∧ spawnsAfter (Connect quietEnv 3 disconnected) = some 0 := by
  obtain ⟨e, s1, h, _, hd, hw, hs, _⟩ :=
    (Connect_dial_always_fails quietEnv disconnected 3 3 rfl
      (fun _ => ⟨"refused", rfl⟩) (by decide) (Nat.le_refl 3)).1 (by decide)
  refine ⟨rfl, ?_, ?_, ?_⟩
  · rw [h]; simpa [dialsAfter, disconnected, dialsOf] using hd
  · rw [h]; simpa [waitsAfter, disconnected, waitsOf] using hw
  · rw [h]; simpa [spawnsAfter, disconnected, spawnsOf] using hs

/-! ## The heartbeat loop -/

theorem heartbeatRange_cons_ok (env : Env) (s : State) (x : String) (rest : List String)
    (conn : Conn) (hconn : s.client.conn = some conn) (hmu : s.client.mu = false)
    (hw : env.writeJSON s.writes = none) :
    heartbeatRange env (x :: rest) s
      = heartbeatRange env rest
          (s.wrote { Topic := "phoenix", Event := "heartbeat", Ref := x } none) := by
  obtain ⟨⟨o, hs, mu, c⟩, tr, d, w⟩ := s
  simp only at hconn hmu hw
  subst hconn hmu
  simp [heartbeatRange, Lock, WriteJSON, Unlock, State.wrote, hw]

theorem heartbeatRange_append_ok (env : Env) (conn : Conn) (pre post : List String) :
    ∀ s : State, s.client.conn = some conn → s.client.mu = false →
      (∀ i, i < pre.length → env.writeJSON (s.writes + i) = none) →
      heartbeatRange env (pre ++ post) s
        = heartbeatRange env post (s.wroteAll (pre.map heartbeatFrame)) := by
  induction pre with
  | nil => intro s _ _ _; simp [State.wroteAll]
  | cons x pre ih =>
    intro s hconn hmu hw
    have h0 : env.writeJSON s.writes = none := by simpa using hw 0 (by simp)
    rw [List.cons_append, heartbeatRange_cons_ok env s x _ conn hconn hmu h0]
    rw [ih (s.wrote _ none) hconn hmu]
    · rw [List.map_cons, ← State.wrote_wroteAll]; rfl
    · intro i hi
      have := hw (i + 1) (by simpa using hi)
      simpa [State.wrote, Nat.add_assoc, Nat.add_comm 1] using this

theorem framesOf_append (a b : List Event) : framesOf (a ++ b) = framesOf a ++ framesOf b := by
  induction a with
  | nil => simp [framesOf]
  | cons x a ih => cases x <;> simp [framesOf, ih]

theorem framesOf_writes (f : String → payload) (l : List String) :
    framesOf (l.map (fun x => Event.writeJSON (f x) none)) = l.map f := by
  induction l with
  | nil => rfl
  | cons x l ih => simp [framesOf, ih]

theorem handledOf_append (a b : List Event) :
    handledOf (a ++ b) = handledOf a ++ handledOf b := by
  induction a with
  | nil => simp [handledOf]
  | cons x a ih => cases x <;> simp [handledOf, ih]

/-- C8. On a heartbeat tick with the connection present, the mutex free and every write
succeeding, `heartbeat` writes exactly one frame per configured slug, in list order, each
with topic `"phoenix"`, event `"heartbeat"` and ref the slug, changes nothing else and
keeps running. The refs of the frames written by the tick, by `Subscribe` and by
`UnSubscribe` for a list of identifiers are those identifiers, in order. -/
theorem heartbeatTick_sends_per_slug (env : Env) (s : State) (conn : Conn)
    (hconn : s.client.conn = some conn) (hmu : s.client.mu = false)
    (hw : ∀ i, i < s.client.options.Slugs.elems.length → env.writeJSON (s.writes + i) = none) :
    heartbeatTick env s
        = (.running,
            { s with
              trace := s.trace ++ s.client.options.Slugs.elems.map (fun slug =>
                Event.writeJSON { Topic := "phoenix", Event := "heartbeat", Ref := slug } none),
              writes := s.writes + s.client.options.Slugs.elems.length })
      ∧ framesOf (heartbeatTick env s).2.trace
          = framesOf s.trace ++ s.client.options.Slugs.elems.map (fun slug =>
              { Topic := "phoenix", Event := "heartbeat", Ref := slug })
      ∧ ((framesOf (heartbeatTick env s).2.trace).drop (framesOf s.trace).length).map
            (fun v => v.Ref) = s.client.options.Slugs.elems
      ∧ ((framesOf (Subscribe env (some s.client.options.Slugs.elems) s).2.trace).drop
            (framesOf s.trace).length).map (fun v => v.Ref) = s.client.options.Slugs.elems
      ∧ ((framesOf (UnSubscribe env (some s.client.options.Slugs.elems) s).2.trace).drop
            (framesOf s.trace).length).map (fun v => v.Ref) = s.client.options.Slugs.elems := by
  have hT : heartbeatTick env s
      = (.running, s.wroteAll (s.client.options.Slugs.elems.map heartbeatFrame)) := by
    have h := heartbeatRange_append_ok env conn s.client.options.Slugs.elems [] s hconn hmu hw
    rw [List.append_nil] at h
    rw [heartbeatTick, h]
    rfl
  have hS : Subscribe env (some s.client.options.Slugs.elems) s
      = (.returned none, s.wroteAll (s.client.options.Slugs.elems.map joinFrame)) := by
    have h := subscribeRange_append_ok env conn s.client.options.Slugs.elems [] s hconn hmu hw
    rw [List.append_nil] at h
    rw [Subscribe, h]
    rfl
  have hU : UnSubscribe env (some s.client.options.Slugs.elems) s
      = (.returned none, s.wroteAll (s.client.options.Slugs.elems.map leaveFrame)) := by
    have h := unSubscribeRange_append_ok env conn s.client.options.Slugs.elems [] s hconn hmu hw
    rw [List.append_nil] at h
    rw [UnSubscribe, h]
    rfl
  rw [hT, hS, hU]
  refine ⟨?_, ?_, ?_, ?_, ?_⟩
  · simp [State.wroteAll, heartbeatFrame, Function.comp_def]
  · simp [State.wroteAll, framesOf_append, heartbeatFrame, Function.comp_def, framesOf_writes]
  · simp [State.wroteAll, framesOf_append, heartbeatFrame, Function.comp_def, framesOf_writes]
  · simp [State.wroteAll, framesOf_append, joinFrame, Function.comp_def, framesOf_writes]
  · simp [State.wroteAll, framesOf_append, leaveFrame, Function.comp_def, framesOf_writes]

/-- C8 at the slugs `["a", "b"]`: two heartbeat frames, refs `a` then `b`, loop running. -/
theorem heartbeatTick_sends_per_slug_witness :
    (heartbeatTick quietEnv withSlugs).1 = .running
      ∧ framesOf (heartbeatTick quietEnv withSlugs).2.trace
          = [{ Topic := "phoenix", Event := "heartbeat", Ref := "a" },
             { Topic := "phoenix", Event := "heartbeat", Ref := "b" }] := by
  have h := heartbeatTick_sends_per_slug quietEnv withSlugs 7 rfl rfl (fun _ _ => rfl)
  refine ⟨by rw [h.1], ?_⟩
  rw [h.2.1]
  rfl

/-- A tick on a client without a connection and with at least one slug: the loop returns
at the first slug, before any `Lock` or write. -/
theorem heartbeatRange_absent (env : Env) (s : State) (slug : String) (rest : List String)
    (hconn : s.client.conn = none) :
    heartbeatRange env (slug :: rest) s = (.terminated, s) := by
  simp [heartbeatRange, hconn]

/-- C7 as stated fails on the empty topic list: on a client without a connection and
without slugs (nil or empty list) the tick does not terminate the heartbeat loop, which is
still running after any number of ticks. -/
theorem heartbeat_absent_no_slugs_keeps_running :
    disconnected.client.conn = none
      ∧ (heartbeatTick quietEnv disconnected).1 = .running
      ∧ ¬ ((heartbeatTick quietEnv disconnected).1 = .terminated)
      ∧ (heartbeatTick quietEnv
          { disconnected with client := WithSlugs disconnected.client (some []) }).1 = .running
      ∧ (heartbeat quietEnv 5 disconnected).1 = .running :=
  ⟨rfl, rfl, by decide, rfl, by decide⟩

/-- C7, amended. After a read error (mutex free) the read loop has set the connection
handle to absent, changed nothing else, and terminated, whatever frames would follow. For
a client whose connection handle is absent at tick time and whose topic list is not empty,
a heartbeat tick changes nothing (no frame written) and terminates the heartbeat loop; in
particular so does the tick that follows a read error. With an empty topic list the tick
writes nothing and the loop keeps running. -/
theorem read_error_then_heartbeat_tick (env : Env) (s s0 : State) (e : String)
    (rest : List ReadResult) (ticks : Nat)
    (hmu : s.client.mu = false) (hconn : s0.client.conn = none) :
    readMessages env (ReadResult.error e :: rest) s
        = (.terminated, { s with client := { s.client with conn := none } })
      ∧ (s0.client.options.Slugs.elems ≠ [] →
          heartbeatTick env s0 = (.terminated, s0)
            ∧ heartbeatLoop env (ticks + 1) s0 = (.terminated, s0))
      ∧ (s.client.options.Slugs.elems ≠ [] →
          heartbeatTick env (readMessages env (ReadResult.error e :: rest) s).2
            = (.terminated, { s with client := { s.client with conn := none } }))
      ∧ (s0.client.options.Slugs.elems = [] → heartbeatTick env s0 = (.running, s0)) := by
  have hread : readMessages env (ReadResult.error e :: rest) s
      = (.terminated, { s with client := { s.client with conn := none } }) := by
    obtain ⟨⟨o, hs, mu, c⟩, tr, d, w⟩ := s
    simp only at hmu
    subst hmu
    cases c <;> simp [readMessages, readIteration, Lock, Unlock]
  have htick : ∀ t : State, t.client.conn = none → t.client.options.Slugs.elems ≠ [] →
      heartbeatTick env t = (.terminated, t) := by
    intro t ht hne
    unfold heartbeatTick
    cases hl : t.client.options.Slugs.elems with
    | nil => exact absurd hl hne
    | cons x xs => exact heartbeatRange_absent env t x xs ht
  refine ⟨hread, fun hne => ⟨htick s0 hconn hne, ?_⟩, fun hne => ?_, fun hnil => ?_⟩
  · simp [heartbeatLoop, htick s0 hconn hne]
  · rw [hread]
    exact htick _ rfl hne
  · simp [heartbeatTick, hnil, heartbeatRange]

/-- C7 amended, on a connected client with the slugs `["a", "b"]`: a read error clears the
handle, and the following tick stops the heartbeat without writing a frame. -/
theorem read_error_then_heartbeat_tick_witness :
    (readMessages quietEnv [ReadResult.error "EOF"] withSlugs).1 = .terminated
      ∧ (readMessages quietEnv [ReadResult.error "EOF"] withSlugs).2.client.conn = none
      ∧ (heartbeatTick quietEnv
          (readMessages quietEnv [ReadResult.error "EOF"] withSlugs).2).1 = .terminated
      ∧ framesOf (heartbeatTick quietEnv
          (readMessages quietEnv [ReadResult.error "EOF"] withSlugs).2).2.trace = [] := by
  have h := read_error_then_heartbeat_tick quietEnv withSlugs disconnected "EOF" [] 0 rfl rfl
  have h3 := h.2.2.1 (by decide)
  rw [h3, h.1]
  exact ⟨rfl, rfl, rfl, rfl⟩

/-! ## The read loop -/

/-- Any `Subscribe` on a connected client with the mutex free returns, leaves the client as it
was and invokes no handler, whatever the results of the writes. -/
theorem subscribeRange_client (env : Env) (conn : Conn) (l : List String) :
    ∀ s : State, s.client.conn = some conn → s.client.mu = false →
      ∃ r s1, subscribeRange env l s = (.returned r, s1) ∧ s1.client = s.client
        ∧ handledOf s1.trace = handledOf s.trace := by
  induction l with
  | nil => intro s _ _; exact ⟨none, s, rfl, rfl, rfl⟩
  | cons x rest ih =>
    intro s hconn hmu
    cases hw : env.writeJSON s.writes with
    | none =>
      rw [subscribeRange_cons_ok env s x rest conn hconn hmu hw]
      obtain ⟨r, s1, h1, h2, h3⟩ := ih (s.wrote _ none) hconn hmu
      refine ⟨r, s1, h1, h2, ?_⟩
      rw [h3]
      simp [State.wrote, handledOf_append, handledOf]
    | some e =>
      rw [subscribeRange_cons_err env s x rest conn e hconn hmu hw]
      refine ⟨some e, _, rfl, rfl, ?_⟩
      simp [State.wrote, handledOf_append, handledOf]

/-- The body of `readMessages` on a decoded frame that is not filtered out, once the
re-subscription step (if any) has returned in state `s1` with the mutex free: what is left
is the lookup of the handler and its call. -/
theorem processMessage_after (env : Env) (s s1 : State) (msg : Message)
    (msgEvent : EventPayload) (r : Option String)
    (hs : suppressed msg.Event = false)
    (hr : (if msg.Event = "phx_reply" ∧ msgEvent.Status ≠ "ok" then
            Subscribe env (some [msgEvent.Ref]) s
          else (Outcome.returned none, s)) = (Outcome.returned r, s1))
    (hmu : s1.client.mu = false) :
    processMessage env msg msgEvent s
      = match s1.client.messageHandlers msg.Event with
        | none => (.running, s1)
        | some EventHandleFunc.nil => (.panicked, s1)
        | some (EventHandleFunc.fn id) =>
          (.running, { s1 with trace := s1.trace ++ [Event.handle id msg] }) := by
  obtain ⟨⟨o, hs1, mu, c⟩, tr, d, w⟩ := s1
  simp only at hmu
  subst hmu
  simp only [processMessage, hs, hr]
  simp only [Lock, Unlock, Bool.false_eq_true, if_false]

theorem readIteration_suppressed (env : Env) (t : State) (msg : Message)
    (msgEvent : EventPayload)
    (hev : msg.Event = "item_received_bid" ∨ msg.Event = "trait_offer"
      ∨ msg.Event = "collection_offer") :
    (readIteration env (ReadResult.message ⟨some msg, msgEvent⟩) t).2 = t := by
  have hs : suppressed msg.Event = true := by
    rcases hev with h | h | h <;> rw [h] <;> decide
  unfold readIteration
  cases t.client.conn with
  | none => rfl
  | some c => simp [processMessage, hs]

/-- C4. A successfully decoded frame whose event name is `"item_received_bid"`,
`"trait_offer"` or `"collection_offer"` leaves the state of any client as it was: no
handler is invoked (and the loop goes on), also when a handler is registered under that
very name, as `OnItemReceivedBid`, `OnTraitOffer` and `OnCollectionOffer` do. A frame with
any other event name, for which a (non-nil) handler is registered, read on a client whose
mutex is free, invokes that handler exactly once, with the decoded message, and the loop
goes on. -/
theorem readIteration_dispatch (env : Env) (s t : State) (msg : Message)
    (msgEvent : EventPayload) (conn : Conn) (id : Nat)
    (hconn : s.client.conn = some conn) (hmu : s.client.mu = false)
    (hreg : s.client.messageHandlers msg.Event = some (EventHandleFunc.fn id)) :
    ((msg.Event = "item_received_bid" ∨ msg.Event = "trait_offer"
          ∨ msg.Event = "collection_offer") →
        (readIteration env (ReadResult.message ⟨some msg, msgEvent⟩) t).2 = t
          ∧ readIteration env (ReadResult.message ⟨some msg, msgEvent⟩) s = (.running, s))
      ∧ (t.client.mu = false →
          (OnItemReceivedBid (EventHandleFunc.fn id) t).2.client.messageHandlers
              "item_received_bid" = some (EventHandleFunc.fn id)
            ∧ handledOf (readIteration env
                (ReadResult.message ⟨some { msg with Event := "item_received_bid" }, msgEvent⟩)
                (OnItemReceivedBid (EventHandleFunc.fn id) t).2).2.trace = handledOf t.trace
            ∧ (OnTraitOffer (EventHandleFunc.fn id) t).2.client.messageHandlers
              "trait_offer" = some (EventHandleFunc.fn id)
            ∧ handledOf (readIteration env
                (ReadResult.message ⟨some { msg with Event := "trait_offer" }, msgEvent⟩)
                (OnTraitOffer (EventHandleFunc.fn id) t).2).2.trace = handledOf t.trace
            ∧ (OnCollectionOffer (EventHandleFunc.fn id) t).2.client.messageHandlers
              "collection_offer" = some (EventHandleFunc.fn id)
            ∧ handledOf (readIteration env
                (ReadResult.message ⟨some { msg with Event := "collection_offer" }, msgEvent⟩)
                (OnCollectionOffer (EventHandleFunc.fn id) t).2).2.trace = handledOf t.trace)
      ∧ (msg.Event ≠ "item_received_bid" → msg.Event ≠ "trait_offer" →
          msg.Event ≠ "collection_offer" →
          (readIteration env (ReadResult.message ⟨some msg, msgEvent⟩) s).1 = .running
            ∧ handledOf (readIteration env (ReadResult.message ⟨some msg, msgEvent⟩) s).2.trace
                = handledOf s.trace ++ [(id, msg)]) := by
  refine ⟨fun hev => ⟨readIteration_suppressed env t msg msgEvent hev, ?_⟩, fun htmu => ?_,
    fun h1 h2 h3 => ?_⟩
  · have hs : suppressed msg.Event = true := by
      rcases hev with h | h | h <;> rw [h] <;> decide
    simp [readIteration, hconn, processMessage, hs]
  · have hreg1 : ∀ e : EventType,
        (OnItems (some [e]) (EventHandleFunc.fn id) t).2.client.messageHandlers e
          = some (EventHandleFunc.fn id) := by
      intro e; simp [OnItems, Lock, htmu, Unlock, Slice.elems, setHandler]
    have htr : ∀ e : EventType,
        (OnItems (some [e]) (EventHandleFunc.fn id) t).2.trace = t.trace := by
      intro e; simp [OnItems, Lock, htmu, Unlock]
    refine ⟨hreg1 _, ?_, hreg1 _, ?_, hreg1 _, ?_⟩
    · rw [readIteration_suppressed env _ _ msgEvent (Or.inl rfl)]
      exact congrArg handledOf (htr _)
    · rw [readIteration_suppressed env _ _ msgEvent (Or.inr (Or.inl rfl))]
      exact congrArg handledOf (htr _)
    · rw [readIteration_suppressed env _ _ msgEvent (Or.inr (Or.inr rfl))]
      exact congrArg handledOf (htr _)
  · have hs : suppressed msg.Event = false := by
      simp [suppressed, h1, h2, h3]
    by_cases hre : msg.Event = "phx_reply" ∧ msgEvent.Status ≠ "ok"
    · obtain ⟨r, s1, hsub, hcl, hhd⟩ := subscribeRange_client env conn [msgEvent.Ref] s hconn hmu
      have hp := processMessage_after env s s1 msg msgEvent r hs
        (by rw [if_pos hre]; exact hsub) (by rw [hcl]; exact hmu)
      rw [hcl, hreg] at hp
      simp only [readIteration, hconn, hp]
      exact ⟨trivial, by simp [handledOf_append, handledOf, hhd]⟩
    · have hp := processMessage_after env s s msg msgEvent none hs
        (by rw [if_neg hre]) hmu
      rw [hreg] at hp
      simp only [readIteration, hconn, hp]
      exact ⟨trivial, by simp [handledOf_append, handledOf]⟩

/-- C4 on an `item_sold` frame with a handler registered by `OnItemSold`: the handler is
invoked once with the decoded message. -/
theorem readIteration_dispatch_witness :
    (readIteration quietEnv
        (ReadResult.message ⟨some soldMessage, ⟨"item_sold", "", "", "collection:a"⟩⟩)
        soldRegistered).1 = .running
      ∧ handledOf (readIteration quietEnv
          (ReadResult.message ⟨some soldMessage, ⟨"item_sold", "", "", "collection:a"⟩⟩)
          soldRegistered).2.trace = [(1, soldMessage)] := by
  have h := (readIteration_dispatch quietEnv soldRegistered soldRegistered soldMessage
    ⟨"item_sold", "", "", "collection:a"⟩ 7 1 rfl rfl rfl).2.2
    (by decide) (by decide) (by decide)
  exact ⟨h.1, h.2⟩

/-- C5. A frame with event `"phx_reply"` whose decoded status is not `"ok"`, read on a
client with the connection present and the mutex free when the write succeeds, makes the
read loop write exactly one frame: the join with topic `"collection:" ++ r`, event
`"phx_join"` and ref `r`, `r` being the frame's ref as decoded into `msgEvent`; the only
other step of the iteration is the call of the handler registered for `"phx_reply"`, if
there is one. A `"phx_reply"` frame with status `"ok"` and a `"phx_close"` frame make the
loop write nothing, in any state of the client. -/
theorem readIteration_reply_rejoins (env : Env) (s t : State) (msg m : Message)
    (msgEvent me : EventPayload) (conn : Conn)
    (hconn : s.client.conn = some conn) (hmu : s.client.mu = false)
    (hw : env.writeJSON s.writes = none)
    (hev : msg.Event = "phx_reply") (hst : msgEvent.Status ≠ "ok") :
    (readIteration env (ReadResult.message ⟨some msg, msgEvent⟩) s).2.trace
        = s.trace
          ++ [Event.writeJSON { Topic := "collection:" ++ msgEvent.Ref, Event := "phx_join",
                                Ref := msgEvent.Ref } none]
          ++ (match s.client.messageHandlers "phx_reply" with
              | some (EventHandleFunc.fn id) => [Event.handle id msg]
              | _ => [])
      ∧ framesOf (readIteration env (ReadResult.message ⟨some msg, msgEvent⟩) s).2.trace
        = framesOf s.trace
          ++ [{ Topic := "collection:" ++ msgEvent.Ref, Event := "phx_join",
                Ref := msgEvent.Ref }]
      ∧ (readIteration env (ReadResult.message ⟨some msg, msgEvent⟩) s).2.writes = s.writes + 1
      ∧ ((m.Event = "phx_reply" ∧ me.Status = "ok") ∨ m.Event = "phx_close" →
          framesOf (readIteration env (ReadResult.message ⟨some m, me⟩) t).2.trace
              = framesOf t.trace
            ∧ (readIteration env (ReadResult.message ⟨some m, me⟩) t).2.writes = t.writes) := by
  have hsupp : suppressed msg.Event = false := by rw [hev]; decide
  have hsub : Subscribe env (some [msgEvent.Ref]) s
      = (.returned none, s.wrote { Topic := "collection:" ++ msgEvent.Ref, Event := "phx_join",
                                   Ref := msgEvent.Ref } none) := by
    show subscribeRange env [msgEvent.Ref] s = _
    rw [subscribeRange_cons_ok env s _ _ conn hconn hmu hw]
    rfl
  have hp := processMessage_after env s
    (s.wrote { Topic := "collection:" ++ msgEvent.Ref, Event := "phx_join",
               Ref := msgEvent.Ref } none) msg msgEvent none hsupp
    (by rw [if_pos ⟨hev, hst⟩]; exact hsub) hmu
  have hit : readIteration env (ReadResult.message ⟨some msg, msgEvent⟩) s
      = processMessage env msg msgEvent s := by
    simp only [readIteration, hconn]
  rw [hit, hp, hev]
  refine ⟨?_, ?_, ?_, ?_⟩
  · cases hh : s.client.messageHandlers "phx_reply" with
    | none => simp [State.wrote, hh]
    | some f => cases f <;> simp [State.wrote, hh]
  · cases hh : s.client.messageHandlers "phx_reply" with
    | none => simp [State.wrote, hh, framesOf_append, framesOf]
    | some f => cases f <;> simp [State.wrote, hh, framesOf_append, framesOf]
  · cases hh : s.client.messageHandlers "phx_reply" with
    | none => simp [State.wrote, hh]
    | some f => cases f <;> simp [State.wrote, hh]
  · intro hm
    have hsm : suppressed m.Event = false := by
      rcases hm with ⟨h, _⟩ | h <;> rw [h] <;> decide
    have hno : ¬ (m.Event = "phx_reply" ∧ me.Status ≠ "ok") := by
      rcases hm with ⟨_, h⟩ | h
      · exact fun hc => hc.2 h
      · rw [h]; exact fun hc => absurd hc.1 (by decide)
    obtain ⟨⟨o, hs, mu, c⟩, tr, d, w⟩ := t
    cases c with
    | none => simp [readIteration]
    | some c =>
      cases mu with
      | true => simp [readIteration, processMessage, hsm, hno, Lock]
      | false =>
        have hq := processMessage_after env
          { client := { options := o, messageHandlers := hs, mu := false, conn := some c },
            trace := tr, dials := d, writes := w } _ m me none hsm (by rw [if_neg hno]) rfl
        simp only [readIteration, hq]
        cases hh : hs m.Event with
        | none => simp [hh]
        | some f => cases f <;> simp [hh, framesOf_append, framesOf]

/-- C5 on a `phx_reply` frame with status `"error"` and ref `"xyz"`: exactly one frame is
written, the join of `collection:xyz`. -/
theorem readIteration_reply_rejoins_witness :
    framesOf (readIteration quietEnv
        (ReadResult.message ⟨some ⟨"collection:xyz", "phx_reply", "xyz", "[]"⟩,
          ⟨"phx_reply", "error", "xyz", "collection:xyz"⟩⟩) connected).2.trace
      = [{ Topic := "collection:xyz", Event := "phx_join", Ref := "xyz" }] := by
  have h := (readIteration_reply_rejoins quietEnv connected connected
    ⟨"collection:xyz", "phx_reply", "xyz", "[]"⟩ ⟨"collection:xyz", "phx_close", "xyz", "[]"⟩
    ⟨"phx_reply", "error", "xyz", "collection:xyz"⟩
    ⟨"phx_close", "", "xyz", "collection:xyz"⟩ 7 rfl rfl rfl rfl (by decide)).2.1
  rw [h]
  rfl

/-! ## The handler table -/

theorem foldl_setHandler (h : EventHandleFunc) (l : List EventType) :
    ∀ c : Client, l.foldl (fun c eventType => setHandler c eventType h) c
      = { c with messageHandlers := fun k => if k ∈ l then some h else c.messageHandlers k } := by
  induction l with
  | nil => intro c; simp
  | cons x l ih =>
    intro c
    rw [List.foldl_cons, ih]
    simp only [setHandler]
    congr 1
    funext k
    by_cases hkl : k ∈ l <;> by_cases hkx : k = x <;> simp [hkl, hkx]

/-- Effect of `OnItems` on a client whose mutex is free: every listed key is set to the handler,
nothing else changes. -/
theorem OnItems_eq (types : Slice EventType) (h : EventHandleFunc) (s : State)
    (hmu : s.client.mu = false) :
    OnItems types h s
      = (.returned (),
          { s with client := { s.client with
              messageHandlers := fun k =>
                if k ∈ types.elems then some h else s.client.messageHandlers k } }) := by
  obtain ⟨⟨o, hs, mu, c⟩, tr, d, w⟩ := s
  simp only at hmu
  subst hmu
  simp [OnItems, Lock, Unlock, foldl_setHandler]

/-- Registering twice under one key is registering the second handler once. -/
theorem OnItems_twice (s : State) (e : EventType) (h1 h2 : EventHandleFunc)
    (hmu : s.client.mu = false) :
    OnItems (some [e]) h2 (OnItems (some [e]) h1 s).2 = OnItems (some [e]) h2 s := by
  rw [OnItems_eq (some [e]) h1 s hmu, OnItems_eq (some [e]) h2 s hmu,
    OnItems_eq (some [e]) h2]
  · simp only [Slice.elems, List.mem_singleton]
    congr 3
    funext k
    by_cases hk : k = e <;> simp [hk]
  · exact hmu

/-- C6. On a client whose mutex is free, registering `h1` and then `h2` for the event type
`e` gives the same result as registering `h2` alone: the table maps `e` to `h2`, and every
other event type to what it was mapped to before. `OnItems` with a list of event types
sets each listed key to the given handler and changes nothing else; `OnItemListed` is
`OnItems` on the single key `"item_listed"`. -/
theorem OnItems_last_write_wins (s : State) (e : EventType) (h1 h2 h : EventHandleFunc)
    (types : Slice EventType) (hmu : s.client.mu = false) :
    OnItems (some [e]) h2 (OnItems (some [e]) h1 s).2 = OnItems (some [e]) h2 s
      ∧ (OnItems (some [e]) h2 (OnItems (some [e]) h1 s).2).2.client.messageHandlers e = some h2
      ∧ (∀ k, k ≠ e →
          (OnItems (some [e]) h2 (OnItems (some [e]) h1 s).2).2.client.messageHandlers k
            = s.client.messageHandlers k)
      ∧ OnItems types h s
          = (.returned (),
              { s with client := { s.client with
                  messageHandlers := fun k =>
                    if k ∈ types.elems then some h else s.client.messageHandlers k } })
      ∧ OnItemListed h2 (OnItemListed h1 s).2 = OnItemListed h2 s
      ∧ OnItemListed h s = OnItems (some ["item_listed"]) h s := by
  have h12 := OnItems_twice s e h1 h2 hmu
  refine ⟨h12, ?_, ?_, OnItems_eq types h s hmu, OnItems_twice s ItemListed h1 h2 hmu, rfl⟩
  · rw [h12, OnItems_eq (some [e]) h2 s hmu]
    simp [Slice.elems]
  · intro k hk
    rw [h12, OnItems_eq (some [e]) h2 s hmu]
    simp [Slice.elems, hk]

/-- C6 on a fresh client: after `OnItemListed` with handler `1` and then with handler `2`,
`item_listed` is mapped to handler `2` and `item_sold` is still unmapped. -/
theorem OnItems_last_write_wins_witness :
    (OnItemListed (EventHandleFunc.fn 2)
        (OnItemListed (EventHandleFunc.fn 1) disconnected).2).2.client.messageHandlers
        "item_listed" = some (EventHandleFunc.fn 2)
      ∧ (OnItemListed (EventHandleFunc.fn 2)
          (OnItemListed (EventHandleFunc.fn 1) disconnected).2).2.client.messageHandlers
          "item_sold" = none := by
  have h := OnItems_last_write_wins disconnected "item_listed" (EventHandleFunc.fn 1)
    (EventHandleFunc.fn 2) EventHandleFunc.nil none rfl
  exact ⟨h.2.1, h.2.2.1 "item_sold" (by decide)⟩

end OpenSea
